import Mathlib

/-!
Shallow embedding of the `valleys` runtime data-shape validator
(`src/index.ts`) and proofs about its documented behavior.

The embedding models JavaScript runtime values (`JSValue`), the recursive
error-node model, the validator factories (`string`, `number`, `boolean`,
`constant`, `array`, `object`, `or`, `iso8601`, `null_`, `undefined_`),
the error formatter (`formatError` / `formatErrorPath`) and the `validate`
entry point.  Machine numbers are modelled as integers together with the
IEEE special values (`NaN`, `Infinity`, `-Infinity`, `-0`); no property
considered here depends on fractional values or rounding.  Fallible code
returns `Except`; throwing (`validate`) is modelled as an `Option` of the
raised error.
-/

set_option maxHeartbeats 1000000

namespace Valleys

/-- JavaScript number model: integers plus the IEEE special values that the
library's semantics observe (`NaN`, the two infinities and negative zero). -/
inductive JSNumber where
  | nan
  | posInf
  | negInf
  | negZero
  | int (n : Int)
deriving DecidableEq, Repr

/-- Strict equality (`===`) on numbers: `NaN` is equal to nothing, and
`-0 === 0`. -/
def JSNumber.strictEq : JSNumber → JSNumber → Bool
  | .nan, _ => false
  | _, .nan => false
  | .negZero, .negZero => true
  | .negZero, .int n => n == 0
  | .int n, .negZero => n == 0
  | .int m, .int n => m == n
  | .posInf, .posInf => true
  | .negInf, .negInf => true
  | _, _ => false

/-- `Number.isFinite`. -/
def JSNumber.isFinite : JSNumber → Bool
  | .int _ => true
  | .negZero => true
  | _ => false

/-- Rendering used by `String(value)` for numbers (`String(-0)` is `"0"`). -/
def JSNumber.render : JSNumber → String
  | .nan => "NaN"
  | .posInf => "Infinity"
  | .negInf => "-Infinity"
  | .negZero => "0"
  | .int n => toString n

/-- JavaScript runtime values, as far as the validators observe them. -/
inductive JSValue where
  | str (s : String)
  | num (n : JSNumber)
  | bool (b : Bool)
  | null
  | undefined
  | arr (elems : List JSValue)
  | obj (props : List (String × JSValue))

/-- `typeof v === "string"`. -/
def JSValue.isStringVal : JSValue → Bool
  | .str _ => true
  | _ => false

/-- `Array.isArray v`. -/
def JSValue.isArrayVal : JSValue → Bool
  | .arr _ => true
  | _ => false

/-- `typeof v === "object" && v !== null && !Array.isArray(v)`. -/
def JSValue.isPlainObject : JSValue → Bool
  | .obj _ => true
  | _ => false

/-- Property read `o[k]`: a declared property absent from the object reads
as `undefined`. -/
def lookupProp (props : List (String × JSValue)) (k : String) : JSValue :=
  match props.find? (fun kv => kv.1 == k) with
  | some kv => kv.2
  | none => JSValue.undefined

/-- Schema descriptors, mirroring the `schema` objects the factories build:
`\x7btype: "string"\x7d`, `\x7btype: "array", item?\x7d`,
`\x7btype: "object", properties\x7d`, `\x7btype: "or", item\x7d`,
`\x7btype: "constant", value\x7d`, and the remaining tags. -/
inductive Schema where
  | string
  | number
  | boolean
  | null
  | undefined
  | iso8601
  | constant (value : String)
  | array (item : Option Schema)
  | object (properties : List (String × Schema))
  | or (item : List Schema)

/-- A rules record: keys in declaration order, each mapped to the configured
threshold or to `none` when the rule key is present but `undefined`. -/
abbrev Rules := List (String × Option Int)

/-- The recursive error model of `src/index.ts`: two leaf kinds
(schema violation, rule violation, each carrying the offending data and the
`context` of schema and rules) and two path-extending wrappers, each of which
carries the container data and exactly one child node. -/
inductive ErrorNode where
  | schemaViolation (data : JSValue) (schema : Schema) (rules : Rules)
  | ruleViolation (rule : String) (data : JSValue) (schema : Schema) (rules : Rules)
  | arrayIndex (data : List JSValue) (index : Nat) (node : ErrorNode)
  | objectProperty (data : List (String × JSValue)) (property : String) (node : ErrorNode)

/-- A validator value: the `unstable_validate` check together with the
`schema` and `rules` fields of the factory-built object. -/
structure Validator where
  check : JSValue → Except ErrorNode JSValue
  schema : Schema
  rules : Rules

/-- Whether a check result is a success. -/
def isOkResult (r : Except ErrorNode JSValue) : Bool :=
  match r with
  | .ok _ => true
  | .error _ => false

/-- Test `minLength !== undefined && len < minLength`. -/
def failsMinLength (minLength : Option Nat) (len : Nat) : Bool :=
  match minLength with
  | some m => len < m
  | none => false

/-- Test `maxLength !== undefined && len > maxLength`. -/
def failsMaxLength (maxLength : Option Nat) (len : Nat) : Bool :=
  match maxLength with
  | some m => m < len
  | none => false

/-- The rules record `\x7bminLength, maxLength\x7d` the string factory stores. -/
def stringRules (minLength maxLength : Option Nat) : Rules :=
  [("minLength", minLength.map Int.ofNat), ("maxLength", maxLength.map Int.ofNat)]

/-- The `string(rules?)` factory: base check `typeof value === "string"`,
then the `minLength` rule, then the `maxLength` rule, else success with the
input itself. -/
def string (minLength maxLength : Option Nat) : Validator :=
  { check := fun input =>
      match input with
      | .str s =>
        if failsMinLength minLength s.length then
          .error (.ruleViolation "minLength" input .string (stringRules minLength maxLength))
        else if failsMaxLength maxLength s.length then
          .error (.ruleViolation "maxLength" input .string (stringRules minLength maxLength))
        else
          .ok input
      | _ => .error (.schemaViolation input .string (stringRules minLength maxLength))
    schema := .string
    rules := stringRules minLength maxLength }

/-- Value of a finite number for rule comparisons (`-0` compares as `0`). -/
def JSNumber.compareVal : JSNumber → Int
  | .int n => n
  | _ => 0

/-- Test `min !== undefined && input < min`. -/
def failsMin (min : Option Int) (x : Int) : Bool :=
  match min with
  | some m => x < m
  | none => false

/-- Test `max !== undefined && input > max`. -/
def failsMax (max : Option Int) (x : Int) : Bool :=
  match max with
  | some m => m < x
  | none => false

/-- The rules record `\x7bmin, max\x7d` the number factory stores. -/
def numberRules (min max : Option Int) : Rules :=
  [("min", min), ("max", max)]

/-- The `number(rules?)` factory: base check finite number, then the `min`
rule, then the `max` rule.  Thresholds are modelled as integers — no claim
depends on fractional values. -/
def number (min max : Option Int) : Validator :=
  { check := fun input =>
      match input with
      | .num n =>
        if n.isFinite = false then
          .error (.schemaViolation input .number (numberRules min max))
        else if failsMin min n.compareVal then
          .error (.ruleViolation "min" input .number (numberRules min max))
        else if failsMax max n.compareVal then
          .error (.ruleViolation "max" input .number (numberRules min max))
        else
          .ok input
      | _ => .error (.schemaViolation input .number (numberRules min max))
    schema := .number
    rules := numberRules min max }

/-- The `boolean()` factory: base check `typeof value === "boolean"`. -/
def boolean : Validator :=
  { check := fun input =>
      match input with
      | .bool _ => .ok input
      | _ => .error (.schemaViolation input .boolean [])
    schema := .boolean
    rules := [] }

/-- The `null_()` factory: accepts only `null`. -/
def null_ : Validator :=
  { check := fun input =>
      match input with
      | .null => .ok input
      | _ => .error (.schemaViolation input .null [])
    schema := .null
    rules := [] }

/-- The `undefined_()` factory: accepts only `undefined`. -/
def undefined_ : Validator :=
  { check := fun input =>
      match input with
      | .undefined => .ok input
      | _ => .error (.schemaViolation input .undefined [])
    schema := .undefined
    rules := [] }

/-- Literals accepted by `constant`: the TS signature restricts the literal
to `string | number | boolean | symbol | undefined | null`; symbols are not
needed by any property considered here. -/
inductive ConstLit where
  | str (s : String)
  | num (n : JSNumber)
  | bool (b : Bool)
  | null
  | undefined
deriving DecidableEq

/-- The `JSValue` a constant literal denotes. -/
def ConstLit.toJSValue : ConstLit → JSValue
  | .str s => .str s
  | .num n => .num n
  | .bool b => .bool b
  | .null => .null
  | .undefined => .undefined

/-- Rendering `String(value)` used for the constant schema. -/
def ConstLit.render : ConstLit → String
  | .str s => s
  | .num n => n.render
  | .bool b => if b then "true" else "false"
  | .null => "null"
  | .undefined => "undefined"

/-- Strict equality `input === value` between an arbitrary runtime value and
a constant literal.  A literal is a primitive, so reference equality with an
array or object is always false. -/
def strictEqLit (input : JSValue) (value : ConstLit) : Bool :=
  match input, value with
  | .str s, .str t => s == t
  | .num a, .num b => JSNumber.strictEq a b
  | .bool a, .bool b => a == b
  | .null, .null => true
  | .undefined, .undefined => true
  | _, _ => false

/-- The `constant(value)` factory: base check strict equality against the
captured literal; on success it returns the captured literal (`value`), not
the input. -/
def constant (value : ConstLit) : Validator :=
  { check := fun input =>
      if strictEqLit input value = false then
        .error (.schemaViolation input (.constant value.render) [])
      else
        .ok value.toJSValue
    schema := .constant value.render
    rules := [] }

/-- The element loop of `array`: check elements in index order starting at
`i`, returning the first failing element's error wrapped with its index and
the whole container array. -/
def checkItemsFrom (itemValidator : Validator) (data : List JSValue) :
    Nat → List JSValue → Option ErrorNode
  | _, [] => none
  | i, x :: rest =>
    match itemValidator.check x with
    | .error e => some (.arrayIndex data i e)
    | .ok _ => checkItemsFrom itemValidator data (i + 1) rest

/-- The rules record `\x7bminLength\x7d` the array factory stores. -/
def arrayRules (minLength : Option Nat) : Rules :=
  [("minLength", minLength.map Int.ofNat)]

/-- The `array(validator?, rules?)` factory: base check `Array.isArray`,
then the `minLength` rule; with no item validator every element passes
unexamined, otherwise elements are checked in index order and the first
failure is wrapped in an array-index node. -/
def array (itemValidator : Option Validator) (minLength : Option Nat) : Validator :=
  { check := fun input =>
      match input with
      | .arr elems =>
        if failsMinLength minLength elems.length then
          .error (.ruleViolation "minLength" input
            (.array (itemValidator.map (fun v => v.schema))) (arrayRules minLength))
        else
          match itemValidator with
          | none => .ok input
          | some v =>
            match checkItemsFrom v elems 0 elems with
            | some e => .error e
            | none => .ok input
      | _ => .error (.schemaViolation input
          (.array (itemValidator.map (fun v => v.schema))) (arrayRules minLength))
    schema := .array (itemValidator.map (fun v => v.schema))
    rules := arrayRules minLength }

/-- The property loop of `object`: check declared properties in declaration
order against the input's property reads, wrapping the first failure with
the property name and the whole container object. -/
def checkProps (input : List (String × JSValue)) :
    List (String × Validator) → Option ErrorNode
  | [] => none
  | (p, v) :: rest =>
    match v.check (lookupProp input p) with
    | .error e => some (.objectProperty input p e)
    | .ok _ => checkProps input rest

/-- The `object(validators?)` factory: base check non-null, non-array
object; declared properties are checked in declaration order (an absent
property reads as `undefined`); undeclared input properties are never
examined. -/
def object (validators : List (String × Validator)) : Validator :=
  { check := fun input =>
      match input with
      | .obj props =>
        match checkProps props validators with
        | some e => .error e
        | none => .ok input
      | _ => .error (.schemaViolation input
          (.object (validators.map (fun pv => (pv.1, pv.2.schema)))) [])
    schema := .object (validators.map (fun pv => (pv.1, pv.2.schema)))
    rules := [] }

/-- The alternative loop of `or`: try each alternative in order and return
the first success's value unmodified. -/
def orFirstOk (input : JSValue) : List Validator → Option JSValue
  | [] => none
  | v :: rest =>
    match v.check input with
    | .ok out => some out
    | .error _ => orFirstOk input rest

/-- The `or(validators)` factory: first success wins; when every alternative
fails (in particular for an empty list) the result is a single schema
violation carrying the union's own schema. -/
def or (validators : List Validator) : Validator :=
  { check := fun input =>
      match orFirstOk input validators with
      | some out => .ok out
      | none => .error (.schemaViolation input
          (.or (validators.map (fun v => v.schema))) [])
    schema := .or (validators.map (fun v => v.schema))
    rules := [] }

/-- Numeric value of a decimal digit character. -/
def digitVal (c : Char) : Nat := c.toNat - 48

/-- Consume exactly `n` decimal digits, accumulating their value. -/
def takeDigits : Nat → Nat → List Char → Option (Nat × List Char)
  | 0, acc, cs => some (acc, cs)
  | n + 1, acc, c :: cs =>
    if c.isDigit then takeDigits n (acc * 10 + digitVal c) cs else none
  | _ + 1, _, [] => none

/-- Consume one expected character. -/
def expectChar (c : Char) : List Char → Option (List Char)
  | d :: cs => if d == c then some cs else none
  | [] => none

/-- Split off a maximal run of decimal digits. -/
def spanDigits : List Char → List Char × List Char
  | [] => ([], [])
  | c :: cs =>
    if c.isDigit then
      let (ds, rest) := spanDigits cs
      (c :: ds, rest)
    else
      ([], c :: cs)

/-- Time-zone designator of a matched string: `Z`, or a signed offset with
its hour and minute fields (sign `true` is `+`). -/
inductive TzDesignator where
  | z
  | offset (plus : Bool) (h : Nat) (m : Nat)
deriving DecidableEq

/-- Fields captured by a successful match of `iso8601Regex`.  `frac` holds
the fractional-second digits (empty when the optional fraction is absent —
a present fraction has at least one digit). -/
structure Iso8601Fields where
  year : Nat
  month : Nat
  day : Nat
  hour : Nat
  minute : Nat
  second : Nat
  frac : List Char
  tz : TzDesignator
deriving DecidableEq

/-- Parse the optional fraction `(?:[.]\d+)?`. -/
def parseFrac : List Char → Option (List Char × List Char)
  | c :: cs =>
    if c == '.' then
      match spanDigits cs with
      | ([], _) => none
      | (ds, rest) => some (ds, rest)
    else
      some ([], c :: cs)
  | [] => none

/-- Parse the anchored tail `(?:Z|[+-]\d{2}:?\d{2})$`. -/
def parseTz : List Char → Option TzDesignator
  | [ 'Z'] => some .z
  | c :: cs =>
    if c == '+' ∨ c == '-' then
      match takeDigits 2 0 cs with
      | some (h, rest) =>
        let rest2 :=
          match rest with
          | d :: ds => if d == ':' then ds else rest
          | [] => rest
        match takeDigits 2 0 rest2 with
        | some (m, []) => some (.offset (c == '+') h m)
        | _ => none
      | none => none
    else
      none
  | [] => none

/-- Deterministic matcher for the source's
`/^\d\x7b4\x7d-\d\x7b2\x7d-\d\x7b2\x7dT\d\x7b2\x7d:\d\x7b2\x7d:\d\x7b2\x7d(?:[.]\d+)?(?:Z|[+-]\d\x7b2\x7d:?\d\x7b2\x7d)$/`:
returns the captured fields exactly when the regex matches.  The regex is
deterministic (no alternative admits backtracking), so a recursive-descent
parse is equivalent. -/
def parseIso8601 (s : String) : Option Iso8601Fields := do
  let cs := s.data
  let (year, cs) ← takeDigits 4 0 cs
  let cs ← expectChar '-' cs
  let (month, cs) ← takeDigits 2 0 cs
  let cs ← expectChar '-' cs
  let (day, cs) ← takeDigits 2 0 cs
  let cs ← expectChar 'T' cs
  let (hour, cs) ← takeDigits 2 0 cs
  let cs ← expectChar ':' cs
  let (minute, cs) ← takeDigits 2 0 cs
  let cs ← expectChar ':' cs
  let (second, cs) ← takeDigits 2 0 cs
  let (frac, cs) ← parseFrac cs
  let tz ← parseTz cs
  pure { year, month, day, hour, minute, second, frac, tz }

/-- Models the host date parser on strings that already match
`iso8601Regex`.  Modelled from the ECMA-262 Date Time String Format as
implemented by the engine the repository's iso8601 tests document:
month `01`–`12`; day `01`–`31` (calendar overflow such as Feb 30 is
normalized, not rejected); hour `00`–`23`, or `24` only at exactly
`24:00:00` with a zero fraction; minute and second `00`–`59`; offset hour
at most `23` and offset minute at most `59`.  `new Date(s).getTime()` is
`NaN` exactly when this returns `false`. -/
def dateFieldsValid (f : Iso8601Fields) : Bool :=
  1 ≤ f.month && f.month ≤ 12 &&
  1 ≤ f.day && f.day ≤ 31 &&
  (f.hour ≤ 23 || (f.hour == 24 && f.minute == 0 && f.second == 0 &&
    f.frac.all (fun c => c == '0'))) &&
  f.minute ≤ 59 && f.second ≤ 59 &&
  (match f.tz with
   | .z => true
   | .offset _ h m => h ≤ 23 && m ≤ 59)

/-- The `iso8601()` factory: base check string-ness and the regex, then
rejection when the host date parser yields an invalid date; on success the
input string is returned (branded only at the type level in the source). -/
def iso8601 : Validator :=
  { check := fun input =>
      match input with
      | .str s =>
        match parseIso8601 s with
        | none => .error (.schemaViolation input .iso8601 [])
        | some f =>
          if dateFieldsValid f then .ok input
          else .error (.schemaViolation input .iso8601 [])
      | _ => .error (.schemaViolation input .iso8601 [])
    schema := .iso8601
    rules := [] }

/-- JSON string escaping for one character (the characters appearing in the
properties considered here; JS additionally escapes other control
characters). -/
def jsonEscapeChar (c : Char) : String :=
  if c == '\"' then "\\\""
  else if c == '\\' then "\\\\"
  else if c == '\n' then "\\n"
  else if c == '\t' then "\\t"
  else if c == '\r' then "\\r"
  else String.singleton c

/-- `JSON.stringify` of a string. -/
def jsonOfString (s : String) : String :=
  "\"" ++ String.join (s.data.map jsonEscapeChar) ++ "\""

/-- `JSON.stringify` of a number: non-finite numbers serialize as `null`,
`-0` as `0`. -/
def jsonOfNumber : JSNumber → String
  | .nan => "null"
  | .posInf => "null"
  | .negInf => "null"
  | .negZero => "0"
  | .int n => toString n

/-- Comma-join a list of already serialized pieces. -/
def joinComma : List String → String
  | [] => ""
  | [s] => s
  | s :: rest => s ++ "," ++ joinComma rest

mutual

/-- `JSON.stringify` of a runtime value in nested position: `undefined`
array elements serialize as `null` and `undefined` object properties are
dropped, as in JS. -/
def jsonOfJSValue : JSValue → String
  | .str s => jsonOfString s
  | .num n => jsonOfNumber n
  | .bool b => if b then "true" else "false"
  | .null => "null"
  | .undefined => "null"
  | .arr elems => "[" ++ jsonOfElems elems ++ "]"
  | .obj props => "\x7b" ++ jsonOfProps props ++ "\x7d"

/-- Serialize array elements. -/
def jsonOfElems : List JSValue → String
  | [] => ""
  | [x] => jsonOfJSValue x
  | x :: rest => jsonOfJSValue x ++ "," ++ jsonOfElems rest

/-- Serialize object properties, dropping `undefined` values. -/
def jsonOfProps : List (String × JSValue) → String
  | [] => ""
  | (k, v) :: rest =>
    match v with
    | .undefined => jsonOfProps rest
    | _ =>
      match rest.filter (fun kv => !(kv.2 matches JSValue.undefined)) with
      | [] => jsonOfString k ++ ":" ++ jsonOfJSValue v
      | _ => jsonOfString k ++ ":" ++ jsonOfJSValue v ++ "," ++ jsonOfProps rest

end

/-- Template-literal interpolation of `JSON.stringify(data)`: at top level
`JSON.stringify(undefined)` is `undefined`, which interpolates as the text
`undefined`. -/
def stringifyTemplate (v : JSValue) : String :=
  match v with
  | .undefined => "undefined"
  | _ => jsonOfJSValue v

mutual

/-- `JSON.stringify` of a schema descriptor, matching the serialized shapes
of the factories' `schema` objects (`item: undefined` of an item-less array
schema is dropped by `JSON.stringify`). -/
def jsonOfSchema : Schema → String
  | .string => "\x7b\"type\":\"string\"\x7d"
  | .number => "\x7b\"type\":\"number\"\x7d"
  | .boolean => "\x7b\"type\":\"boolean\"\x7d"
  | .null => "\x7b\"type\":\"null\"\x7d"
  | .undefined => "\x7b\"type\":\"undefined\"\x7d"
  | .iso8601 => "\x7b\"type\":\"iso8601\"\x7d"
  | .constant v => "\x7b\"type\":\"constant\",\"value\":" ++ jsonOfString v ++ "\x7d"
  | .array none => "\x7b\"type\":\"array\"\x7d"
  | .array (some s) => "\x7b\"type\":\"array\",\"item\":" ++ jsonOfSchema s ++ "\x7d"
  | .object props =>
      "\x7b\"type\":\"object\",\"properties\":\x7b" ++ jsonOfSchemaProps props ++ "\x7d\x7d"
  | .or items => "\x7b\"type\":\"or\",\"item\":[" ++ jsonOfSchemaList items ++ "]\x7d"

/-- Serialize an object schema's property map. -/
def jsonOfSchemaProps : List (String × Schema) → String
  | [] => ""
  | [(k, s)] => jsonOfString k ++ ":" ++ jsonOfSchema s
  | (k, s) :: rest => jsonOfString k ++ ":" ++ jsonOfSchema s ++ "," ++ jsonOfSchemaProps rest

/-- Serialize a union schema's alternatives. -/
def jsonOfSchemaList : List Schema → String
  | [] => ""
  | [s] => jsonOfSchema s
  | s :: rest => jsonOfSchema s ++ "," ++ jsonOfSchemaList rest

end

/-- `JSON.stringify` of a rules record: keys in declaration order, keys with
`undefined` values dropped. -/
def jsonOfRules (rules : Rules) : String :=
  "\x7b" ++ joinComma ((rules.filter (fun kv => kv.2.isSome)).map
    (fun kv => jsonOfString kv.1 ++ ":" ++ (match kv.2 with
      | some n => toString n
      | none => "null"))) ++ "\x7d"

/-- The two leaf shapes the `formatError` while-loop terminates at. -/
inductive ErrorLeaf where
  | schemaViolation (data : JSValue) (schema : Schema) (rules : Rules)
  | ruleViolation (rule : String) (data : JSValue) (schema : Schema) (rules : Rules)

/-- Walk `entry.node` links to the leaf, as the while-loop of `formatError`
does. -/
def leafOf : ErrorNode → ErrorLeaf
  | .schemaViolation d s r => .schemaViolation d s r
  | .ruleViolation rule d s r => .ruleViolation rule d s r
  | .arrayIndex _ _ n => leafOf n
  | .objectProperty _ _ n => leafOf n

/-- The test `rest.startsWith("[")` of the source: whether the first
character is `[`. -/
def startsWithLbracket (s : String) : Bool :=
  match s.data with
  | c :: _ => c == '['
  | [] => false

/-- The `formatErrorPath` function: leaves contribute the empty path; an
array-index node contributes `[index]` and joins the rest with a dot unless
the rest is empty or starts with `[`; an object-property node contributes
the property name with the same joining rule. -/
def formatErrorPath : ErrorNode → String
  | .schemaViolation _ _ _ => ""
  | .ruleViolation _ _ _ _ => ""
  | .arrayIndex _ i node =>
    let rest := formatErrorPath node
    if rest = "" then "[" ++ toString i ++ "]"
    else if startsWithLbracket rest then "[" ++ toString i ++ "]" ++ rest
    else "[" ++ toString i ++ "]" ++ "." ++ rest
  | .objectProperty _ p node =>
    let rest := formatErrorPath node
    if rest = "" then p
    else if startsWithLbracket rest then p ++ rest
    else p ++ "." ++ rest

/-- The tail of the message built from the leaf's context: serialized
schema, the serialized rules when at least one configured rule value is not
`undefined`, and the serialized offending value. -/
def formatContextTail (schema : Schema) (rules : Rules) (data : JSValue) : String :=
  let withSchema := " expected schema: " ++ jsonOfSchema schema
  let withRules :=
    if (rules.filter (fun kv => kv.2.isSome)).length > 0 then
      withSchema ++ " with rules: " ++ jsonOfRules rules
    else
      withSchema
  withRules ++ "; received value: " ++ stringifyTemplate data

/-- The `formatError` function: `"Validation failed"`, the path when
non-empty, the reason clause from the leaf kind, and the context tail. -/
def formatError (node : ErrorNode) : String :=
  let pathString := formatErrorPath node
  let message :=
    if pathString ≠ "" then "Validation failed" ++ " at " ++ pathString
    else "Validation failed"
  match leafOf node with
  | .schemaViolation data schema rules =>
    message ++ " due to schema mismatch;" ++ formatContextTail schema rules data
  | .ruleViolation rule data schema rules =>
    message ++ " due to rule violation: " ++ rule ++ ";" ++ formatContextTail schema rules data

/-- A `ValidationError`: the root error node together with the message that
the constructor precomputes via `formatError`. -/
structure ValidationError where
  root : ErrorNode
  message : String

/-- The `ValidationError` constructor: `super(formatError(node))` stores the
formatted message, and the root node is retained. -/
def ValidationError.ofNode (node : ErrorNode) : ValidationError :=
  { root := node, message := formatError node }

/-- The `validate(value, validator)` entry point.  Raising is its only
effect, so it is modelled as the optionally raised error: `some` exactly
when the check fails, carrying the `ValidationError` built from the
returned error node. -/
def validate (value : JSValue) (validator : Validator) : Option ValidationError :=
  match validator.check value with
  | .error e => some (ValidationError.ofNode e)
  | .ok _ => none

/-! Theorems. -/

/-- The rule name of a rule-violation node, if the node is one. -/
def ruleNameOf : ErrorNode → Option String
  | .ruleViolation r _ _ _ => some r
  | _ => none

/-- A sample regular-expression pattern, modelled by its matching predicate:
matches exactly the all-digit strings. -/
def digitsOnlyPattern (s : String) : Bool := s.data.all Char.isDigit

/-- C1 counterexample: the string validator of `src/index.ts` supports only
the rules `minLength` and `maxLength` — there is no `pattern` rule.  The
string `"abc"` satisfies `minLength: 1` and `maxLength: 5` and does not
match the configured pattern (here: digits only), yet `check` succeeds
instead of failing with a `pattern` rule violation as the claim states. -/
theorem string_pattern_rule_counterexample :
    (1 ≤ "abc".length ∧ "abc".length ≤ 5 ∧ digitsOnlyPattern "abc" = false) ∧
    (string (some 1) (some 5)).check (.str "abc") = .ok (.str "abc") :=
  ⟨⟨by decide, by decide, by decide⟩, rfl⟩

/-- C1 (amended): the check of a string validator built with rules
`\x7bminLength, maxLength\x7d` first fails with a schema violation if the value
is not a string, and otherwise reports at most one rule violation, testing
the rules in the order `minLength` then `maxLength` and returning a rule
violation naming the first violated rule; no `pattern` rule exists, so no
error produced by a string validator ever names a `pattern` rule. -/
theorem string_rule_order_spec :
    (∀ mn mx v, v.isStringVal = false →
      (string mn mx).check v = .error (.schemaViolation v .string (stringRules mn mx))) ∧
    (∀ mn mx s, failsMinLength mn s.length = true →
      (string mn mx).check (.str s) =
        .error (.ruleViolation "minLength" (.str s) .string (stringRules mn mx))) ∧
    (∀ mn mx s, failsMinLength mn s.length = false → failsMaxLength mx s.length = true →
      (string mn mx).check (.str s) =
        .error (.ruleViolation "maxLength" (.str s) .string (stringRules mn mx))) ∧
    (∀ mn mx s, failsMinLength mn s.length = false → failsMaxLength mx s.length = false →
      (string mn mx).check (.str s) = .ok (.str s)) ∧
    (∀ mn mx v e, (string mn mx).check v = .error e → ruleNameOf e ≠ some "pattern") := by
  refine ⟨?_, ?_, ?_, ?_, ?_⟩
  · intro mn mx v h
    cases v <;> simp [JSValue.isStringVal] at h <;> rfl
  · intro mn mx s h
    simp [string, h]
  · intro mn mx s h1 h2
    simp [string, h1, h2]
  · intro mn mx s h1 h2
    simp [string, h1, h2]
  · intro mn mx v e h
    cases v <;> simp only [string] at h
    case str s =>
      split at h
      · injection h with h1
        subst h1
        simp [ruleNameOf]
      · split at h
        · injection h with h1
          subst h1
          simp [ruleNameOf]
        · simp at h
    all_goals
      injection h with h1
    all_goals
      subst h1
    all_goals
      simp [ruleNameOf]

/-- Witness for the amended C1 theorem: on `"abc"` with
`minLength: 1, maxLength: 2`, `minLength` passes and the first violated
rule, `maxLength`, is the one reported. -/
theorem string_rule_order_spec_witness :
    (string (some 1) (some 2)).check (.str "abc") =
      .error (.ruleViolation "maxLength" (.str "abc") .string (stringRules (some 1) (some 2))) :=
  string_rule_order_spec.2.2.1 (some 1) (some 2) "abc" (by decide) (by decide)

/-- C8: `constant(NaN)` fails with a schema violation on every input,
including `NaN` itself, because the base check is strict equality and
`NaN !== NaN`. -/
theorem constant_nan_always_fails :
    (∀ v : JSValue, (constant (.num .nan)).check v =
      .error (.schemaViolation v (.constant "NaN") [])) ∧
    (constant (.num .nan)).check (.num .nan) =
      .error (.schemaViolation (.num .nan) (.constant "NaN") []) ∧
    JSNumber.strictEq .nan .nan = false := by
  refine ⟨?_, rfl, rfl⟩
  intro v
  have h : strictEqLit v (.num .nan) = false := by
    cases v with
    | num n => cases n <;> rfl
    | _ => rfl
  simp [constant, h, ConstLit.render, JSNumber.render]

/-- The number of leaves below an error node. -/
def leafCount : ErrorNode → Nat
  | .schemaViolation _ _ _ => 1
  | .ruleViolation _ _ _ _ => 1
  | .arrayIndex _ _ n => leafCount n
  | .objectProperty _ _ n => leafCount n

/-- C9: every error node is a finite chain terminating in exactly one leaf
(the embedded `ErrorNode` type mirrors the source's recursive type, in which
an array-index or object-property node carries exactly one child in its
`entry`), and each wrapping step a combinator performs — adding an
array-index or object-property node above an existing error — preserves the
single-leaf invariant. -/
theorem errorNode_single_leaf_invariant :
    (∀ e : ErrorNode, leafCount e = 1) ∧
    (∀ data i e, leafCount (ErrorNode.arrayIndex data i e) = leafCount e) ∧
    (∀ data p e, leafCount (ErrorNode.objectProperty data p e) = leafCount e) := by
  refine ⟨?_, fun _ _ _ => rfl, fun _ _ _ => rfl⟩
  intro e
  induction e <;> simp [leafCount, *]

/-- C10: on success `constant` returns the literal captured at construction
time, not the input: `constant(0)` accepts `-0` (strict equality identifies
the two zeros) but returns `+0`, a value distinguishable from the input. -/
theorem constant_returns_literal_not_input :
    (constant (.num (.int 0))).check (.num .negZero) = .ok (.num (.int 0)) ∧
    strictEqLit (.num .negZero) (.num (.int 0)) = true ∧
    JSValue.num (.int 0) ≠ JSValue.num .negZero := by
  refine ⟨rfl, rfl, ?_⟩
  intro h
  injection h with h2
  exact absurd h2 (by decide)

/-- When every declared property's check succeeds on its property read, the
property loop reports nothing. -/
theorem checkProps_none_of_all_ok (m : List (String × JSValue)) :
    ∀ vs : List (String × Validator),
      (∀ p d, (p, d) ∈ vs → isOkResult (d.check (lookupProp m p)) = true) →
      checkProps m vs = none := by
  intro vs
  induction vs with
  | nil => intro _; rfl
  | cons hd tl ih =>
    intro h
    obtain ⟨p, d⟩ := hd
    have hpd := h p d (List.mem_cons_self _ _)
    cases hcheck : d.check (lookupProp m p) with
    | error e => simp [isOkResult, hcheck] at hpd
    | ok out =>
      simp only [checkProps, hcheck]
      exact ih (fun q vd hm => h q vd (List.mem_cons_of_mem _ hm))

/-- The property loop stops at the first failing declared property and wraps
its error with the property name and the container. -/
theorem checkProps_first_error (m : List (String × JSValue)) :
    ∀ (pre : List (String × Validator)) (p : String) (d : Validator)
      (rest : List (String × Validator)) (e : ErrorNode),
      (∀ q vd, (q, vd) ∈ pre → isOkResult (vd.check (lookupProp m q)) = true) →
      d.check (lookupProp m p) = .error e →
      checkProps m (pre ++ (p, d) :: rest) = some (.objectProperty m p e) := by
  intro pre
  induction pre with
  | nil =>
    intro p d rest e _ hcheck
    simp [checkProps, hcheck]
  | cons hd tl ih =>
    intro p d rest e hok hcheck
    obtain ⟨q, vd⟩ := hd
    have hq := hok q vd (List.mem_cons_self _ _)
    cases hc : vd.check (lookupProp m q) with
    | error e0 => simp [isOkResult, hc] at hq
    | ok out =>
      simp only [List.cons_append, checkProps, hc]
      exact ih p d rest e (fun r vr hm => hok r vr (List.mem_cons_of_mem _ hm)) hcheck

/-- Success of the object check depends only on the property reads of the
declared properties. -/
theorem checkProps_isNone_congr (m₁ m₂ : List (String × JSValue)) :
    ∀ vs : List (String × Validator),
      (∀ p d, (p, d) ∈ vs → lookupProp m₁ p = lookupProp m₂ p) →
      (checkProps m₁ vs).isNone = (checkProps m₂ vs).isNone := by
  intro vs
  induction vs with
  | nil => intro _; rfl
  | cons hd tl ih =>
    intro h
    obtain ⟨p, d⟩ := hd
    have hp := h p d (List.mem_cons_self _ _)
    simp only [checkProps, hp]
    cases d.check (lookupProp m₂ p) with
    | error e => rfl
    | ok out => exact ih (fun q vd hm => h q vd (List.mem_cons_of_mem _ hm))

/-- C2: an object validator checks declared properties in declaration order
against the input's property reads, stopping at the first failing property
and wrapping its error in an object-property node carrying the property name
and the container value; undeclared input properties are never examined, and
a declared property absent from the input is checked against `undefined`, so
it passes exactly when its validator accepts `undefined`. -/
theorem object_check_spec :
    (∀ vs v, JSValue.isPlainObject v = false →
      (object vs).check v = .error (.schemaViolation v
        (.object (vs.map (fun pv => (pv.1, pv.2.schema)))) [])) ∧
    (∀ vs m, (∀ p d, (p, d) ∈ vs → isOkResult (d.check (lookupProp m p)) = true) →
      (object vs).check (.obj m) = .ok (.obj m)) ∧
    (∀ pre p d rest m e,
      (∀ q vd, (q, vd) ∈ pre → isOkResult (vd.check (lookupProp m q)) = true) →
      d.check (lookupProp m p) = .error e →
      (object (pre ++ (p, d) :: rest)).check (.obj m) =
        .error (.objectProperty m p e)) ∧
    (∀ vs m₁ m₂, (∀ p d, (p, d) ∈ vs → lookupProp m₁ p = lookupProp m₂ p) →
      isOkResult ((object vs).check (.obj m₁)) =
        isOkResult ((object vs).check (.obj m₂))) ∧
    (∀ p d m, lookupProp m p = .undefined →
      isOkResult ((object [(p, d)]).check (.obj m)) = isOkResult (d.check .undefined)) := by
  refine ⟨?_, ?_, ?_, ?_, ?_⟩
  · intro vs v h
    cases v <;> simp [JSValue.isPlainObject] at h <;> rfl
  · intro vs m h
    simp [object, checkProps_none_of_all_ok m vs h]
  · intro pre p d rest m e hok hcheck
    simp [object, checkProps_first_error m pre p d rest e hok hcheck]
  · intro vs m₁ m₂ h
    have hc := checkProps_isNone_congr m₁ m₂ vs h
    simp only [object]
    cases h1 : checkProps m₁ vs <;> cases h2 : checkProps m₂ vs <;>
      simp [h1, h2] at hc ⊢ <;> rfl
  · intro p d m h
    simp only [object, checkProps, h]
    cases d.check JSValue.undefined <;> rfl

/-- Witness for C2: `object(\x7bname: string(), age: number()\x7d)` on
`\x7bname: 123, age: 30\x7d` fails at the first declared property `name`,
wrapping the string schema violation with the property name and the
container object. -/
theorem object_check_spec_witness :
    (object ([] ++ ("name", string none none) :: [("age", number none none)])).check
      (.obj [("name", .num (.int 123)), ("age", .num (.int 30))]) =
      .error (.objectProperty [("name", .num (.int 123)), ("age", .num (.int 30))] "name"
        (.schemaViolation (.num (.int 123)) .string (stringRules none none))) :=
  object_check_spec.2.2.1 [] "name" (string none none) [("age", number none none)]
    [("name", .num (.int 123)), ("age", .num (.int 30))]
    (.schemaViolation (.num (.int 123)) .string (stringRules none none))
    (by intro q vd hm; simp at hm) rfl

/-- When every element's check succeeds the element loop reports nothing. -/
theorem checkItemsFrom_none_of_all_ok (d : Validator) (data : List JSValue) :
    ∀ (l : List JSValue) (i : Nat),
      (∀ y ∈ l, isOkResult (d.check y) = true) →
      checkItemsFrom d data i l = none := by
  intro l
  induction l with
  | nil => intro i _; rfl
  | cons x rest ih =>
    intro i h
    have hx := h x (List.mem_cons_self _ _)
    cases hc : d.check x with
    | error e => simp [isOkResult, hc] at hx
    | ok out =>
      simp only [checkItemsFrom, hc]
      exact ih (i + 1) (fun y hm => h y (List.mem_cons_of_mem _ hm))

/-- The element loop stops at the first failing element, wrapping its error
with that element's index and the container array. -/
theorem checkItemsFrom_first_error (d : Validator) (data : List JSValue) :
    ∀ (pre : List JSValue) (i : Nat) (x : JSValue) (rest : List JSValue) (e : ErrorNode),
      (∀ y ∈ pre, isOkResult (d.check y) = true) →
      d.check x = .error e →
      checkItemsFrom d data i (pre ++ x :: rest) =
        some (.arrayIndex data (i + pre.length) e) := by
  intro pre
  induction pre with
  | nil =>
    intro i x rest e _ hcheck
    simp [checkItemsFrom, hcheck]
  | cons y tl ih =>
    intro i x rest e hok hcheck
    have hy := hok y (List.mem_cons_self _ _)
    cases hc : d.check y with
    | error e0 => simp [isOkResult, hc] at hy
    | ok out =>
      simp only [List.cons_append, checkItemsFrom, hc, List.append_eq]
      rw [ih (i + 1) x rest e (fun z hm => hok z (List.mem_cons_of_mem _ hm)) hcheck]
      have h2 : i + 1 + tl.length = i + (y :: tl).length := by
        simp only [List.length_cons]
        omega
      rw [h2]

/-- C4: an array validator fails with a schema violation on non-arrays, then
with a `minLength` rule violation when a configured `minLength` exceeds the
array's length; with no item validator every element passes unexamined, and
with an item validator elements are checked in index order, stopping at the
first failing element, whose error is wrapped in an array-index node
carrying that index and the container array. -/
theorem array_check_spec :
    (∀ item mn v, JSValue.isArrayVal v = false →
      (array item mn).check v = .error (.schemaViolation v
        (.array (item.map (fun d => d.schema))) (arrayRules mn))) ∧
    (∀ item mn l, failsMinLength mn l.length = true →
      (array item mn).check (.arr l) = .error (.ruleViolation "minLength" (.arr l)
        (.array (item.map (fun d => d.schema))) (arrayRules mn))) ∧
    (∀ mn l, failsMinLength mn l.length = false →
      (array none mn).check (.arr l) = .ok (.arr l)) ∧
    (∀ d mn l, failsMinLength mn l.length = false →
      (∀ y ∈ l, isOkResult (d.check y) = true) →
      (array (some d) mn).check (.arr l) = .ok (.arr l)) ∧
    (∀ d mn pre x rest e, failsMinLength mn (pre ++ x :: rest).length = false →
      (∀ y ∈ pre, isOkResult (d.check y) = true) →
      d.check x = .error e →
      (array (some d) mn).check (.arr (pre ++ x :: rest)) =
        .error (.arrayIndex (pre ++ x :: rest) pre.length e)) := by
  refine ⟨?_, ?_, ?_, ?_, ?_⟩
  · intro item mn v h
    cases v <;> simp [JSValue.isArrayVal] at h <;> rfl
  · intro item mn l h
    simp [array, h]
  · intro mn l h
    simp [array, h]
  · intro d mn l h hall
    simp [array, h, checkItemsFrom_none_of_all_ok d l l 0 hall]
  · intro d mn pre x rest e h hok hcheck
    have hfirst := checkItemsFrom_first_error d (pre ++ x :: rest) pre 0 x rest e hok hcheck
    simp only [Nat.zero_add] at hfirst
    simp only [List.length_append, List.length_cons] at h
    simp [array, h, hfirst]

/-- Witness for C4: `array(string())` on `["a", 1]` checks elements in index
order and wraps the failure of element `1` in an array-index node. -/
theorem array_check_spec_witness :
    (array (some (string none none)) none).check (.arr ([.str "a"] ++ .num (.int 1) :: [])) =
      .error (.arrayIndex ([.str "a"] ++ .num (.int 1) :: []) 1
        (.schemaViolation (.num (.int 1)) .string (stringRules none none))) :=
  array_check_spec.2.2.2.2 (string none none) none [.str "a"] (.num (.int 1)) []
    (.schemaViolation (.num (.int 1)) .string (stringRules none none))
    (by decide)
    (by intro y hy; rw [List.mem_singleton] at hy; subst hy; rfl)
    rfl

/-- When every alternative fails, the alternative loop reports no success. -/
theorem orFirstOk_none_of_all_err (v : JSValue) :
    ∀ alts : List Validator,
      (∀ a ∈ alts, isOkResult (a.check v) = false) →
      orFirstOk v alts = none := by
  intro alts
  induction alts with
  | nil => intro _; rfl
  | cons a rest ih =>
    intro h
    have ha := h a (List.mem_cons_self _ _)
    cases hc : a.check v with
    | ok out => simp [isOkResult, hc] at ha
    | error e =>
      simp only [orFirstOk, hc]
      exact ih (fun b hm => h b (List.mem_cons_of_mem _ hm))

/-- The alternative loop returns the first success's value unmodified. -/
theorem orFirstOk_first_ok (v : JSValue) :
    ∀ (pre : List Validator) (d : Validator) (rest : List Validator) (out : JSValue),
      (∀ a ∈ pre, isOkResult (a.check v) = false) →
      d.check v = .ok out →
      orFirstOk v (pre ++ d :: rest) = some out := by
  intro pre
  induction pre with
  | nil =>
    intro d rest out _ hcheck
    simp [orFirstOk, hcheck]
  | cons a tl ih =>
    intro d rest out hok hcheck
    have ha := hok a (List.mem_cons_self _ _)
    cases hc : a.check v with
    | ok o => simp [isOkResult, hc] at ha
    | error e =>
      simp only [List.cons_append, orFirstOk, hc]
      exact ih d rest out (fun b hm => hok b (List.mem_cons_of_mem _ hm)) hcheck

/-- C3: `or` tries the alternatives in order and returns the first success
unmodified — so when two alternatives both accept an input, swapping their
order swaps which result is returned; when every alternative fails (in
particular for the empty list) the result is a single schema violation
carrying the union's own schema, and no individual alternative's failure
appears in it. -/
theorem or_check_spec :
    (∀ pre d rest v out, (∀ a ∈ pre, isOkResult (a.check v) = false) →
      d.check v = .ok out → (or (pre ++ d :: rest)).check v = .ok out) ∧
    (∀ alts v, (∀ a ∈ alts, isOkResult (a.check v) = false) →
      (or alts).check v = .error (.schemaViolation v
        (.or (alts.map (fun a => a.schema))) [])) ∧
    (∀ v, (or []).check v = .error (.schemaViolation v (.or []) [])) ∧
    (∀ A B v a b, A.check v = .ok a → B.check v = .ok b →
      (or [A, B]).check v = .ok a ∧ (or [B, A]).check v = .ok b) := by
  refine ⟨?_, ?_, ?_, ?_⟩
  · intro pre d rest v out hok hcheck
    simp [or, orFirstOk_first_ok v pre d rest out hok hcheck]
  · intro alts v h
    simp [or, orFirstOk_none_of_all_err v alts h]
  · intro v
    rfl
  · intro A B v a b hA hB
    constructor
    · simp [or, orFirstOk, hA]
    · simp [or, orFirstOk, hB]

/-- Witness for C3: with two string-shaped alternatives that both accept
`"x"`, each ordering returns its first alternative's result. -/
theorem or_check_spec_witness :
    (or [string (some 0) none, string none none]).check (.str "x") = .ok (.str "x") ∧
    (or [string none none, string (some 0) none]).check (.str "x") = .ok (.str "x") :=
  or_check_spec.2.2.2 (string (some 0) none) (string none none) (.str "x")
    (.str "x") (.str "x") rfl rfl

/-- C6: `validate(value, validator)` raises exactly when the validator's
check fails, the raised error is the `ValidationError` built from the
returned error node (so its root is that node), and on success nothing is
raised — raising is the function's only effect. -/
theorem validate_spec :
    ∀ (d : Validator) (v : JSValue),
      ((validate v d).isSome ↔ ∃ e, d.check v = .error e) ∧
      (∀ e, d.check v = .error e →
        validate v d = some (ValidationError.ofNode e) ∧
        (validate v d).map (fun err => err.root) = some e) ∧
      (∀ out, d.check v = .ok out → validate v d = none) := by
  intro d v
  cases h : d.check v with
  | error e =>
    refine ⟨?_, ?_, ?_⟩
    · simp [validate, h]
    · intro e0 h0
      injection h0 with h1
      subst h1
      simp [validate, h, ValidationError.ofNode]
    · intro out h0
      exact absurd h0 (by simp)
  | ok out =>
    refine ⟨?_, ?_, ?_⟩
    · simp [validate, h]
    · intro e0 h0
      exact absurd h0 (by simp)
    · intro o h0
      simp [validate, h]

/-- Witness for C6: validating the string `"x"` with `boolean()` raises the
`ValidationError` whose root is the schema violation the check returned. -/
theorem validate_spec_witness :
    validate (.str "x") boolean =
      some (ValidationError.ofNode (.schemaViolation (.str "x") .boolean [])) ∧
    (validate (.str "x") boolean).map (fun err => err.root) =
      some (.schemaViolation (.str "x") .boolean []) :=
  ((validate_spec boolean (.str "x")).2.1
    (.schemaViolation (.str "x") .boolean []) rfl)

/-- C7: `iso8601()` accepts `"2023-12-25T10:30:00Z"` and
`"2023-12-25T10:30:00.123+05:30"`, returning them unchanged; it rejects
with a schema violation the date-only string `"2023-12-25"`, the
timezone-less `"2023-12-25T10:30:00"`, and the invalid-month
`"2023-13-25T10:30:00Z"`; and it rejects every string whose minute or
second field is 60 or more. -/
theorem iso8601_check_spec :
    iso8601.check (.str "2023-12-25T10:30:00Z") = .ok (.str "2023-12-25T10:30:00Z") ∧
    iso8601.check (.str "2023-12-25T10:30:00.123+05:30") =
      .ok (.str "2023-12-25T10:30:00.123+05:30") ∧
    iso8601.check (.str "2023-12-25") =
      .error (.schemaViolation (.str "2023-12-25") .iso8601 []) ∧
    iso8601.check (.str "2023-12-25T10:30:00") =
      .error (.schemaViolation (.str "2023-12-25T10:30:00") .iso8601 []) ∧
    iso8601.check (.str "2023-13-25T10:30:00Z") =
      .error (.schemaViolation (.str "2023-13-25T10:30:00Z") .iso8601 []) ∧
    (∀ s f, parseIso8601 s = some f → 60 ≤ f.minute ∨ 60 ≤ f.second →
      iso8601.check (.str s) = .error (.schemaViolation (.str s) .iso8601 [])) := by
  refine ⟨rfl, rfl, rfl, rfl, rfl, ?_⟩
  intro s f hp hbad
  have hv : dateFieldsValid f = false := by
    cases hd : dateFieldsValid f
    · rfl
    · exfalso
      simp only [dateFieldsValid, Bool.and_eq_true, decide_eq_true_eq] at hd
      rcases hbad with hmin | hsec
      · omega
      · omega
  simp [iso8601, hp, hv]

/-- Witness for C7: the string `"2023-12-25T10:61:00Z"` matches the regex
with minute field 61 and is rejected. -/
theorem iso8601_check_spec_witness :
    iso8601.check (.str "2023-12-25T10:61:00Z") =
      .error (.schemaViolation (.str "2023-12-25T10:61:00Z") .iso8601 []) :=
  iso8601_check_spec.2.2.2.2.2 "2023-12-25T10:61:00Z"
    { year := 2023, month := 12, day := 25, hour := 10, minute := 61, second := 0,
      frac := [], tz := .z }
    (by decide) (Or.inl (by decide))

/-- A path segment as the spec describes it: a property name or an
`[index]` bracket. -/
inductive PathSeg where
  | prop (p : String)
  | idx (i : Nat)

/-- Render one segment. -/
def segRender : PathSeg → String
  | .prop p => p
  | .idx i => "[" ++ toString i ++ "]"

/-- The segments from root to leaf, as the spec reads them off the node
chain. -/
def specPathSegs : ErrorNode → List PathSeg
  | .schemaViolation _ _ _ => []
  | .ruleViolation _ _ _ _ => []
  | .arrayIndex _ i node => .idx i :: specPathSegs node
  | .objectProperty _ p node => .prop p :: specPathSegs node

/-- Join segments with dots, except that no dot is inserted before a
segment whose rendering starts with `[`. -/
def specJoinSegs : List PathSeg → String
  | [] => ""
  | s :: rest =>
    let r := specJoinSegs rest
    if r = "" then segRender s
    else if startsWithLbracket r then segRender s ++ r
    else segRender s ++ "." ++ r

/-- The schema carried by the leaf. -/
def ErrorLeaf.schemaOf : ErrorLeaf → Schema
  | .schemaViolation _ s _ => s
  | .ruleViolation _ _ s _ => s

/-- The rules carried by the leaf. -/
def ErrorLeaf.rulesOf : ErrorLeaf → Rules
  | .schemaViolation _ _ r => r
  | .ruleViolation _ _ _ r => r

/-- The offending value carried by the leaf. -/
def ErrorLeaf.dataOf : ErrorLeaf → JSValue
  | .schemaViolation d _ _ => d
  | .ruleViolation _ d _ _ => d

/-- The reason clause of the leaf. -/
def ErrorLeaf.reasonOf : ErrorLeaf → String
  | .schemaViolation _ _ _ => " due to schema mismatch;"
  | .ruleViolation rule _ _ _ => " due to rule violation: " ++ rule ++ ";"

/-- The message as the spec words it: `"Validation failed"`, then
`" at <path>"` only when the accumulated path is non-empty, then the leaf's
reason clause, the leaf's schema as JSON, the rules as JSON only when at
least one configured rule value is not absent, and the offending value as
JSON. -/
def specMessage (node : ErrorNode) : String :=
  let path := specJoinSegs (specPathSegs node)
  let leaf := leafOf node
  (if path = "" then "Validation failed" else "Validation failed" ++ " at " ++ path) ++
    leaf.reasonOf ++
    (" expected schema: " ++ jsonOfSchema leaf.schemaOf ++
      (if leaf.rulesOf.any (fun kv => kv.2.isSome) then
        " with rules: " ++ jsonOfRules leaf.rulesOf
      else "") ++
      "; received value: " ++ stringifyTemplate leaf.dataOf)

/-- The implementation's path string equals the spec's segment join. -/
theorem formatErrorPath_eq_specJoin (node : ErrorNode) :
    formatErrorPath node = specJoinSegs (specPathSegs node) := by
  induction node with
  | schemaViolation d s r => rfl
  | ruleViolation rule d s r => rfl
  | arrayIndex d i n ih =>
    simp only [formatErrorPath, specPathSegs, specJoinSegs, segRender, ih]
  | objectProperty d p n ih =>
    simp only [formatErrorPath, specPathSegs, specJoinSegs, segRender, ih]

/-- A rules list has a positively sized filter of configured entries exactly
when some entry is configured. -/
theorem rules_filter_pos_iff_any (l : Rules) :
    (0 < (l.filter (fun kv => kv.2.isSome)).length) ↔
      l.any (fun kv => kv.2.isSome) = true := by
  induction l with
  | nil => simp
  | cons hd tl ih =>
    cases h : hd.2.isSome <;> simp [List.filter_cons, h, ih]

/-- The input of the nested C5 example:
`\x7buser: \x7bprofile: \x7bname: 123\x7d\x7d\x7d`. -/
def c5Input : JSValue :=
  .obj [("user", .obj [("profile", .obj [("name", .num (.int 123))])])]

/-- The validator of the nested C5 example:
`object(\x7buser: object(\x7bprofile: object(\x7bname: string()\x7d)\x7d)\x7d)`. -/
def c5Validator : Validator :=
  object [("user", object [("profile", object [("name", string none none)])])]

/-- The error the C5 example's check returns. -/
def c5Error : ErrorNode :=
  .objectProperty [("user", .obj [("profile", .obj [("name", .num (.int 123))])])] "user"
    (.objectProperty [("profile", .obj [("name", .num (.int 123))])] "profile"
      (.objectProperty [("name", .num (.int 123))] "name"
        (.schemaViolation (.num (.int 123)) .string (stringRules none none))))

/-- C5: the formatted message is `"Validation failed"`, then `" at <path>"`
only when the accumulated path is non-empty (segments joined with dots
except before a segment starting with `[`), then the leaf's reason clause,
the leaf's schema as JSON, the rules as JSON only when at least one
configured rule value is not absent, and the offending value as JSON; in
particular the nested example formats exactly as quoted in the spec. -/
theorem formatError_spec :
    (∀ node, formatError node = specMessage node) ∧
    c5Validator.check c5Input = .error c5Error ∧
    formatError c5Error =
      "Validation failed at user.profile.name due to schema mismatch; expected schema: \x7b\"type\":\"string\"\x7d; received value: 123" := by
  refine ⟨?_, rfl, by decide⟩
  intro node
  unfold formatError specMessage formatContextTail
  rw [formatErrorPath_eq_specJoin]
  by_cases hp : specJoinSegs (specPathSegs node) = ""
  · simp only [hp, ne_eq, not_true_eq_false, if_false, if_true, reduceIte]
    cases hleaf : leafOf node with
    | schemaViolation d s r =>
      simp only [ErrorLeaf.reasonOf, ErrorLeaf.schemaOf, ErrorLeaf.rulesOf, ErrorLeaf.dataOf]
      by_cases hr : r.any (fun kv => kv.2.isSome) = true
      · rw [if_pos ((rules_filter_pos_iff_any r).mpr hr), if_pos hr]
        simp only [← String.append_assoc, String.append_empty]
      · rw [if_neg (fun hpos => hr ((rules_filter_pos_iff_any r).mp hpos)),
          if_neg hr]
        simp only [← String.append_assoc, String.append_empty]
    | ruleViolation rule d s r =>
      simp only [ErrorLeaf.reasonOf, ErrorLeaf.schemaOf, ErrorLeaf.rulesOf, ErrorLeaf.dataOf]
      by_cases hr : r.any (fun kv => kv.2.isSome) = true
      · rw [if_pos ((rules_filter_pos_iff_any r).mpr hr), if_pos hr]
        simp only [← String.append_assoc, String.append_empty]
      · rw [if_neg (fun hpos => hr ((rules_filter_pos_iff_any r).mp hpos)),
          if_neg hr]
        simp only [← String.append_assoc, String.append_empty]
  · simp only [hp, ne_eq, not_false_eq_true, if_true, if_false, reduceIte]
    cases hleaf : leafOf node with
    | schemaViolation d s r =>
      simp only [ErrorLeaf.reasonOf, ErrorLeaf.schemaOf, ErrorLeaf.rulesOf, ErrorLeaf.dataOf]
      by_cases hr : r.any (fun kv => kv.2.isSome) = true
      · rw [if_pos ((rules_filter_pos_iff_any r).mpr hr), if_pos hr]
        simp only [← String.append_assoc, String.append_empty]
      · rw [if_neg (fun hpos => hr ((rules_filter_pos_iff_any r).mp hpos)),
          if_neg hr]
        simp only [← String.append_assoc, String.append_empty]
    | ruleViolation rule d s r =>
      simp only [ErrorLeaf.reasonOf, ErrorLeaf.schemaOf, ErrorLeaf.rulesOf, ErrorLeaf.dataOf]
      by_cases hr : r.any (fun kv => kv.2.isSome) = true
      · rw [if_pos ((rules_filter_pos_iff_any r).mpr hr), if_pos hr]
        simp only [← String.append_assoc, String.append_empty]
      · rw [if_neg (fun hpos => hr ((rules_filter_pos_iff_any r).mp hpos)),
          if_neg hr]
        simp only [← String.append_assoc, String.append_empty]

end Valleys
